import Mathlib

/-!
Verification of the MIME-assembly core of the OFT→EML converter
(`src/converter.py`, function `convert_oft_to_eml`).

The Python code is shallowly embedded: the structured message object
produced by the external extraction library is modelled as a record of
optional fields, bytes are modelled as `List Nat`, and the MIME document
built by the `email` library calls is modelled as an explicit part tree
plus a character-level serializer mirroring `Message.as_string()`
(compat32 generator with `maxheaderlen=0`, i.e. no header folding).
-/

namespace OftEml

/-! ### Python-style truthiness for optional strings -/

/-- Truthiness of an optional string field, as Python's `if msg.sender:`
reads it: a missing attribute (`None`) and the empty string are falsy. -/
def truthyS : Option String → Bool
  | some s => s ≠ ""
  | none => false

/-- Python's `a or default` on an optional string: the default is used
when the value is absent or empty (falsy). -/
def pyOrS : Option String → String → String
  | some s, d => if s = "" then d else s
  | none, d => d

/-! ### Bytes and base64 (email.encoders.encode_base64 / base64.encodebytes) -/

/-- The 64 characters of the standard base64 alphabet. -/
def b64chars : List Char :=
  "ABCDEFGHIJKLMNOPQRSTUVWXYZabcdefghijklmnopqrstuvwxyz0123456789+/".data

/-- Character for a 6-bit group. -/
def b64char (n : Nat) : Char := b64chars.getD (n % 64) 'A'

/-- Core base64 encoding of a byte sequence (no line wrapping):
groups of three bytes become four alphabet characters, with `=` padding
for a final group of one or two bytes. -/
def b64core : List Nat → List Char
  | a :: b :: c :: rest =>
      b64char (a / 4) :: b64char ((a % 4) * 16 + b / 16) ::
      b64char ((b % 16) * 4 + c / 64) :: b64char (c % 64) :: b64core rest
  | [a, b] =>
      [b64char (a / 4), b64char ((a % 4) * 16 + b / 16),
       b64char ((b % 16) * 4), '=']
  | [a] =>
      [b64char (a / 4), b64char ((a % 4) * 16), '=', '=']
  | [] => []

/-- Insert a newline after every 76 characters (fuel-driven so that it
computes by `rfl`; the fuel is instantiated with the list length, which
always suffices since each step consumes at least one character). -/
def wrapAux : Nat → List Char → List Char
  | _, [] => []
  | 0, l => l
  | fuel + 1, l => l.take 76 ++ '\n' :: wrapAux fuel (l.drop 76)

/-- Base64 body encoding as `base64.encodebytes` produces it: 76-character
lines, each terminated by a newline. -/
def encodeBase64Payload (d : List Nat) : List Char :=
  wrapAux (b64core d).length (b64core d)

/-! ### UTF-8 encoding of text payloads -/

/-- UTF-8 bytes of a single code point. -/
def utf8Char (c : Char) : List Nat :=
  let n := c.toNat
  if n < 128 then [n]
  else if n < 2048 then [192 + n / 64, 128 + n % 64]
  else if n < 65536 then [224 + n / 4096, 128 + (n / 64) % 64, 128 + n % 64]
  else [240 + n / 262144, 128 + (n / 4096) % 64, 128 + (n / 64) % 64, 128 + n % 64]

/-- UTF-8 bytes of a character list. -/
def utf8Encode : List Char → List Nat
  | [] => []
  | c :: t => utf8Char c ++ utf8Encode t

/-! ### The structured message record and its attachments -/

/-- One attachment of the extracted message.  `data = none` models a
missing `data` attribute; `contentId = none` models
`getattr(attachment, 'contentId', None)` returning `None`. -/
structure Attachment where
  data : Option (List Nat)
  longFilename : Option String
  shortFilename : Option String
  contentId : Option String
deriving DecidableEq

/-- The date attribute of the message: either a datetime (with an
optional UTC offset in minutes — `none` models a naive datetime without
`tzinfo`), or a raw non-datetime value such as a plain string (which has
no `strftime` attribute). -/
inductive PyDate where
  | dt (year month day hour minute second : Nat) (tz : Option Int)
  | raw (s : String)
deriving DecidableEq

/-- The structured message object read from the OFT file (the external
collaborator's output). -/
structure MessageRecord where
  sender : Option String
  toRecip : Option String
  cc : Option String
  subject : Option String
  date : Option PyDate
  body : Option String
  htmlBody : Option String
  attachments : List Attachment
deriving DecidableEq

/-- Display name of an attachment:
`attachment.longFilename or attachment.shortFilename or "attachment"`. -/
def displayName (a : Attachment) : String :=
  pyOrS a.longFilename (pyOrS a.shortFilename "attachment")

/-- The condition `hasattr(attachment, 'data') and attachment.data`:
the data attribute exists and the byte string is non-empty. -/
def dataNonEmpty (a : Attachment) : Bool :=
  match a.data with
  | some (_ :: _) => true
  | _ => false

/-! ### Attachment classification (inline image vs regular attachment) -/

/-- Suffix test on character lists. -/
def endsChars (l suf : List Char) : Bool :=
  decide (suf.length ≤ l.length) && (l.drop (l.length - suf.length) == suf)

/-- ASCII lowercasing of one character (`str.lower()` restricted to the
ASCII range, which is all the extension test depends on). -/
def lowerChar (c : Char) : Char :=
  if 'A' ≤ c ∧ c ≤ 'Z' then Char.ofNat (c.toNat + 32) else c

/-- Python `s.lower()` on a character list. -/
def lowerChars (l : List Char) : List Char := l.map lowerChar

/-- The test `filename.lower().endswith(('.png', '.jpg', '.jpeg', '.gif', '.bmp'))`. -/
def isImageName (filename : String) : Bool :=
  let lf := lowerChars filename.data
  endsChars lf ".png".data || endsChars lf ".jpg".data ||
  endsChars lf ".jpeg".data || endsChars lf ".gif".data || endsChars lf ".bmp".data

/-- Python `filename.split('.')[-1]`: the segment after the last dot (the whole
string when there is no dot). -/
def afterLastDot (l : List Char) : List Char :=
  ((l.reverse.takeWhile (fun c => c ≠ '.')).reverse)

/-- Python `filename.split('.')[-1].lower()` with the `jpg → jpeg`
normalization applied (lines 90–92 of the source). -/
def normalizedImageType (filename : String) : String :=
  let t : String := String.mk (lowerChars (afterLastDot filename.data))
  if t = "jpg" then "jpeg" else t

/-- The escape of `email.utils.quote`: backslashes and double quotes, as
`_formatparam` applies inside a quoted-string parameter value. -/
def pyQuote (s : String) : String :=
  ⟨s.data.foldr (fun c acc =>
      if c = '\\' then '\\' :: '\\' :: acc
      else if c = '"' then '\\' :: '"' :: acc
      else c :: acc) []⟩

/-- Whether a character is in the ASCII range (`s.encode('ascii')`
succeeds exactly when every code point is below 128). -/
def asciiCharB (c : Char) : Bool := decide (c.toNat < 128)

/-- Uppercase hexadecimal digits. -/
def hexDigits : List Char := "0123456789ABCDEF".data

/-- Hex digit of a 4-bit group. -/
def hexDig (n : Nat) : Char := hexDigits.getD (n % 16) '0'

/-- The apostrophe character (used by the RFC 2231 `charset''value`
syntax). -/
def apos : Char := Char.ofNat 39

/-- Bytes `urllib.parse.quote` leaves unescaped with `safe=''`: ASCII
letters, digits, and `_`, `.`, `-`, `~`. -/
def alwaysSafeByte (b : Nat) : Bool :=
  (decide (65 ≤ b) && decide (b ≤ 90)) || (decide (97 ≤ b) && decide (b ≤ 122)) ||
  (decide (48 ≤ b) && decide (b ≤ 57)) || b == 95 || b == 46 || b == 45 || b == 126

/-- Percent-encoding of one byte (`urllib.parse.quote`, uppercase hex). -/
def pctByte (b : Nat) : List Char :=
  if alwaysSafeByte b then [Char.ofNat b] else ['%', hexDig (b / 16), hexDig (b % 16)]

/-- Percent-encoding of a byte sequence. -/
def pctEncode : List Nat → List Char
  | [] => []
  | b :: t => pctByte b ++ pctEncode t

/-- The `filename` parameter as `Message.add_header`/`_formatparam`
renders it: a bare `filename` for an empty value; for a value that
cannot be encoded as ASCII, the RFC 2231 extended form
`filename*=utf-8''<percent-encoded UTF-8 bytes>`
(`utils.encode_rfc2231(value, 'utf-8', '')`, never quoted); otherwise
the quoted-string form `filename="<utils.quote value>"`. -/
def formatParamFilename (name : String) : String :=
  if name = "" then "filename"
  else if name.data.all asciiCharB then "filename=\"" ++ pyQuote name ++ "\""
  else "filename*=utf-8" ++ String.mk [apos, apos] ++
    String.mk (pctEncode (utf8Encode name.data))

/-- One MIME leaf part: its Content-Type value, the headers added after
the Content-Transfer-Encoding header, and the transfer-encoded payload. -/
structure Part where
  ctype : String
  extraHeaders : List (String × String)
  payload : List Char
deriving DecidableEq

/-- Translation of the per-attachment body of the loop in
`convert_oft_to_eml` (lines 81–110): attachments without (non-empty)
data produce no part; otherwise the part is an inline image when the
content id is truthy and the lowercased display name ends in a
recognized image extension, and a regular `application/octet-stream`
attachment otherwise. -/
def attachmentPart (a : Attachment) : Option Part :=
  match a.data with
  | some (b :: bs) =>
    let filename := displayName a
    if truthyS a.contentId && isImageName filename then
      some { ctype := "image/" ++ normalizedImageType filename,
             extraHeaders :=
               [("Content-ID", "<" ++ a.contentId.getD "" ++ ">"),
                ("Content-Disposition", "inline; " ++ formatParamFilename filename)],
             payload := encodeBase64Payload (b :: bs) }
    else
      some { ctype := "application/octet-stream",
             extraHeaders :=
               [("Content-Disposition", "attachment; filename=\"" ++ filename ++ "\"")],
             payload := encodeBase64Payload (b :: bs) }
  | _ => none

/-! ### Body parts and document assembly -/

/-- A `MIMEText(text, subtype, 'utf-8')` part: UTF-8 charset forces
base64 content-transfer-encoding of the UTF-8 bytes. -/
def mkText (sub : String) (txt : String) : Part :=
  { ctype := "text/" ++ sub ++ "; charset=\"utf-8\"",
    extraHeaders := [],
    payload := encodeBase64Payload (utf8Encode txt.data) }

/-- The body part produced for one optional text field: present exactly
when the field is truthy (`if msg.body:` / `if msg.htmlBody:`). -/
def textPartOpt (sub : String) : Option String → List Part
  | some s => if s = "" then [] else [mkText sub s]
  | none => []

/-- The children of the `multipart/alternative` container: a plain part
when `msg.body` is truthy, then an HTML part when `msg.htmlBody` is. -/
def bodyParts (r : MessageRecord) : List Part :=
  textPartOpt "plain" r.body ++ textPartOpt "html" r.htmlBody

/-- Parts produced by the attachment loop, guarded by
`if msg.attachments:` exactly as in the source. -/
def attachParts (r : MessageRecord) : List Part :=
  if r.attachments.isEmpty then [] else r.attachments.filterMap attachmentPart

/-- The assembled MIME document as a tree. -/
inductive MimeEntity where
  | part : Part → MimeEntity
  | multi : String → List MimeEntity → MimeEntity

/-- Assembly of the document tree: a `multipart/related` root whose
first child is the `multipart/alternative` container, followed by one
part per kept attachment, in input order. -/
def assemble (r : MessageRecord) : MimeEntity :=
  .multi "related"
    (.multi "alternative" ((bodyParts r).map .part) ::
     (attachParts r).map .part)

/-! ### Date formatting (`msg.date.strftime(...)` vs `str(msg.date)`) -/

/-- Zero-padded two-digit decimal rendering. -/
def pad2 (n : Nat) : String := if n < 10 then "0" ++ toString n else toString n

/-- Zero-padded four-digit decimal rendering (`%Y`, `%04d`-style). -/
def pad4 (n : Nat) : String :=
  if n < 10 then "000" ++ toString n
  else if n < 100 then "00" ++ toString n
  else if n < 1000 then "0" ++ toString n
  else toString n

/-- Abbreviated weekday names, indexed with Sunday = 0. -/
def dayNames : List String := ["Sun", "Mon", "Tue", "Wed", "Thu", "Fri", "Sat"]

/-- Abbreviated month names. -/
def monthNames : List String :=
  ["Jan", "Feb", "Mar", "Apr", "May", "Jun", "Jul", "Aug", "Sep", "Oct", "Nov", "Dec"]

/-- Sakamoto offsets for the day-of-week computation. -/
def sakTable : List Nat := [0, 3, 2, 5, 0, 3, 5, 1, 4, 6, 2, 4]

/-- Gregorian day of week (Sunday = 0), Sakamoto's method. -/
def dayOfWeek (y m d : Nat) : Nat :=
  let y' := if m < 3 then y - 1 else y
  (y' + y' / 4 - y' / 100 + y' / 400 + sakTable.getD (m - 1) 0 + d) % 7

/-- Rendering of `%z` for an aware datetime (`±HHMM`); the empty string when the
datetime is naive — `strftime` does not raise in that case. -/
def tzStrftime : Option Int → String
  | none => ""
  | some m => (if m < 0 then "-" else "+") ++ pad2 (m.natAbs / 60) ++ pad2 (m.natAbs % 60)

/-- Python `date.strftime('%a, %d %b %Y %H:%M:%S %z')`. -/
def strftimeDate (y mo da h mi s : Nat) (tz : Option Int) : String :=
  dayNames.getD (dayOfWeek y mo da) "" ++ ", " ++ pad2 da ++ " " ++
  monthNames.getD (mo - 1) "" ++ " " ++ pad4 y ++ " " ++
  pad2 h ++ ":" ++ pad2 mi ++ ":" ++ pad2 s ++ " " ++ tzStrftime tz

/-- Python `str(msg.date)`: ISO-style rendering for a datetime (with `±HH:MM`
when aware), and the string itself for a raw string value. -/
def pyStrDate : PyDate → String
  | .dt y mo da h mi s tz =>
      pad4 y ++ "-" ++ pad2 mo ++ "-" ++ pad2 da ++ " " ++
      pad2 h ++ ":" ++ pad2 mi ++ ":" ++ pad2 s ++
      (match tz with
       | none => ""
       | some m => (if m < 0 then "-" else "+") ++ pad2 (m.natAbs / 60) ++ ":" ++ pad2 (m.natAbs % 60))
  | .raw s => s

/-- Line 61 of the source: `msg.date.strftime('%a, %d %b %Y %H:%M:%S %z')
if hasattr(msg.date, 'strftime') else str(msg.date)`. -/
def formatDate : PyDate → String
  | .dt y mo da h mi s tz => strftimeDate y mo da h mi s tz
  | .raw s => s

/-- Truthiness of the date attribute: datetimes are always truthy, a raw
string is truthy when non-empty. -/
def dateTruthy : PyDate → Bool
  | .dt _ _ _ _ _ _ _ => true
  | .raw s => s ≠ ""

/-! ### Message headers (lines 52–61 of the source) -/

/-- One optional header: emitted only when the field is truthy. -/
def optHeader (name : String) : Option String → List (String × String)
  | some s => if s = "" then [] else [(name, s)]
  | none => []

/-- The `Date` header, guarded by `if msg.date:`. -/
def dateHeader : Option PyDate → List (String × String)
  | some d => if dateTruthy d then [("Date", formatDate d)] else []
  | none => []

/-- The headers set on the root message by lines 52–61, in insertion
order. -/
def recordHeaders (r : MessageRecord) : List (String × String) :=
  optHeader "From" r.sender ++ optHeader "To" r.toRecip ++ optHeader "Cc" r.cc ++
  optHeader "Subject" r.subject ++ dateHeader r.date

/-- Full header list of the root message: the `Content-Type` (with the
boundary parameter filled in at serialization time) and `MIME-Version`
headers added by `MIMEMultipart('related')`, then the record headers. -/
def rootHeaders (r : MessageRecord) (b : String) : List (String × String) :=
  ("Content-Type", "multipart/related; boundary=\"" ++ b ++ "\"") ::
  ("MIME-Version", "1.0") :: recordHeaders r

/-- Whether a header with the given name occurs in a header list. -/
def hasHeaderName (n : String) (hs : List (String × String)) : Bool :=
  hs.any (fun h => h.1 == n)

/-! ### Header value encoding (email.header.Header, as_string with maxheaderlen=0) -/

/-- The bytes that RFC 2047 Q-encoding leaves unescaped
(`email.quoprimime`: `-`, `!`, `*`, `+`, `/`, letters and digits). -/
def qsafeBytes : List Nat :=
  [45, 33, 42, 43, 47] ++
  (List.range 26).map (fun i => 65 + i) ++
  (List.range 26).map (fun i => 97 + i) ++
  (List.range 10).map (fun i => 48 + i)

/-- Q-encoding of one byte: space becomes `_`, safe bytes stand for
themselves, everything else becomes `=XX`. -/
def qByte (b : Nat) : List Char :=
  if b = 32 then ['_']
  else if qsafeBytes.contains b then [Char.ofNat b]
  else ['=', hexDig (b / 16), hexDig (b % 16)]

/-- Q-encoding of a byte sequence. -/
def qEncode : List Nat → List Char
  | [] => []
  | b :: t => qByte b ++ qEncode t

/-- Length from `email.base64mime.header_length`: base64 length of `n` bytes. -/
def b64HeaderLen (n : Nat) : Nat := (n + 2) / 3 * 4

/-- Length from `email.quoprimime.header_length`: Q-encoded length of the bytes. -/
def qpHeaderLen : List Nat → Nat
  | [] => 0
  | b :: t => (qByte b).length + qpHeaderLen t

/-- Serialization of one header value, as `Header(value).encode()`
renders it with `maxlinelen=0` (no folding): an ASCII value passes
through unchanged; otherwise the UTF-8 bytes are emitted as a single
encoded word, base64 or Q-encoded, whichever is shorter (base64 only
when strictly shorter, matching `Charset.SHORTEST`). -/
def headerEncodeValue (s : String) : String :=
  if s.data.all asciiCharB then s
  else
    let bytes := utf8Encode s.data
    if b64HeaderLen bytes.length < qpHeaderLen bytes then
      "=?utf-8?b?" ++ String.mk (b64core bytes) ++ "?="
    else
      "=?utf-8?q?" ++ String.mk (qEncode bytes) ++ "?="

/-- One serialized header line, `Name: encoded-value\n`. -/
def headerLineL (h : String × String) : List Char :=
  h.1.data ++ (": ").data ++ (headerEncodeValue h.2).data ++ ['\n']

/-- The list `needle` occurs contiguously inside `hay`. -/
def ContainsSeg (needle hay : List Char) : Prop :=
  ∃ p q, hay = p ++ needle ++ q

/-! ### Output path derivation (lines 39–41 and 130 of the source) -/

/-- Split a character list on a separator character. -/
def splitOnChar (ch : Char) : List Char → List (List Char)
  | [] => [[]]
  | c :: t =>
    if c = ch then [] :: splitOnChar ch t
    else
      match splitOnChar ch t with
      | [] => [[c]]
      | l :: ls => (c :: l) :: ls

/-- Python `PurePath.name`: the final path component (empty and `.` components
are dropped by the path parser). -/
def pathName (p : String) : List Char :=
  ((splitOnChar '/' p.data).filter
    (fun comp => !(comp == ([] : List Char)) && !(comp == ['.']))).getLastD []

/-- Python `name.rfind('.')`: index of the last dot, if any. -/
def rfindDot (l : List Char) : Option Nat :=
  (l.reverse.findIdx? (fun c => c == '.')).map (fun j => l.length - 1 - j)

/-- Python `Path(p).stem`: the final component without its suffix; the suffix
exists only when the last dot is neither the first nor the last
character of the name. -/
def pathStem (p : String) : String :=
  let nm := pathName p
  match rfindDot nm with
  | some i => if 0 < i ∧ i < nm.length - 1 then String.mk (nm.take i) else String.mk nm
  | none => String.mk nm

/-- Lines 39–41: the output path is the supplied one, or the input
file's stem with the `.eml` extension in the current directory. -/
def convertOutputPath (oftPath : String) : Option String → String
  | none => pathStem oftPath ++ ".eml"
  | some p => p

/-! ### Serialization (Generator.flatten with mangle_from_=False, maxheaderlen=0) -/

/-- Concatenation of a list of lists. -/
def catLists {α : Type} : List (List α) → List α
  | [] => []
  | l :: ls => l ++ catLists ls

/-- Join with a separator between consecutive elements. -/
def joinSep {α : Type} (sep : List α) : List (List α) → List α
  | [] => []
  | [t] => t
  | t :: t' :: ts => t ++ sep ++ joinSep sep (t' :: ts)

/-- Serialized header block: one line per header, in order. -/
def headerBlock (hs : List (String × String)) : List Char :=
  catLists (hs.map headerLineL)

/-- Headers of a leaf part in insertion order: `Content-Type` and
`MIME-Version` from the `MIMEBase`/`MIMEText` constructor, the
`Content-Transfer-Encoding: base64` added by the encoder, then the
headers added by `add_header`. -/
def partHeaderList (p : Part) : List (String × String) :=
  ("Content-Type", p.ctype) :: ("MIME-Version", "1.0") ::
  ("Content-Transfer-Encoding", "base64") :: p.extraHeaders

/-- Serialization of one leaf part: headers, a blank line, the payload. -/
def partText (p : Part) : List Char :=
  headerBlock (partHeaderList p) ++ '\n' :: p.payload

/-- Body of a multipart container with boundary `bd`: `--bd` before the
first subpart, `\n--bd\n` between subparts, `\n--bd--\n` at the end
(also emitted when there are no subparts). -/
def mpBody (bd : List Char) (ts : List (List Char)) : List Char :=
  ("--".data ++ bd ++ ['\n']) ++ joinSep ("\n--".data ++ bd ++ ['\n']) ts ++
    ("\n--".data ++ bd ++ ("--".data ++ ['\n']))

/-- Headers of the `multipart/alternative` container with its boundary
parameter filled in. -/
def altHeaders (b : String) : List (String × String) :=
  [("Content-Type", "multipart/alternative; boundary=\"" ++ b ++ "\""),
   ("MIME-Version", "1.0")]

/-- Serialization of the alternative container under boundary `b2`. -/
def altText (r : MessageRecord) (b2 : String) : List Char :=
  headerBlock (altHeaders b2) ++ '\n' :: mpBody b2.data ((bodyParts r).map partText)

/-- Serialized texts of the attachment parts. -/
def attTexts (r : MessageRecord) : List (List Char) :=
  (attachParts r).map partText

/-- Full serialization of the converted message, with `b1` the boundary
generated for the `multipart/related` root and `b2` the boundary of the
nested `multipart/alternative` container.  Everything else is a pure
function of the record. -/
def serializeRecord (r : MessageRecord) (b1 b2 : String) : List Char :=
  headerBlock (rootHeaders r b1) ++ '\n' :: mpBody b1.data (altText r b2 :: attTexts r)

/-- The encoded payloads of all leaf parts of the document. -/
def allPayloads (r : MessageRecord) : List (List Char) :=
  (bodyParts r ++ attachParts r).map Part.payload

/-! ### Boundary generation (email.generator._make_boundary) -/

/-- Left-pad a decimal rendering with zeros to the given width. -/
def padZeros (w : Nat) (s : String) : String :=
  String.mk (List.replicate (w - s.length) '0') ++ s

/-- Formatting `'%019d' % token`. -/
def fmt019 (n : Nat) : String := padZeros 19 (toString n)

/-- The string `'=' * 15 + ('%019d' % token) + '=='`, the boundary constructed
from one random token. -/
def boundaryStr (token : Nat) : String :=
  "===============" ++ fmt019 token ++ "=="

/-- The candidates the retry loop tries in order: the base boundary,
then `base.0`, `base.1`, … -/
def boundaryCandidates (base : String) (fuel : Nat) : List String :=
  base :: (List.range fuel).map (fun i => base ++ "." ++ toString i)

/-- Whether a line matches `^--boundary(--)?$`. -/
def isDashLine (b : String) (line : List Char) : Bool :=
  line == ("--" ++ b).data || line == ("--" ++ b ++ "--").data

/-- The MULTILINE regex search of `_make_boundary`: some line of the
text consists of the dashed boundary. -/
def boundaryClashes (b : String) (text : List Char) : Bool :=
  (splitOnChar '\n' text).any (isDashLine b)

/-- Model of `_make_boundary(text)` with the randomness made explicit: the first
candidate that does not clash with the flattened subpart text (the
loop's counter is bounded by the explicit fuel). -/
def makeBoundary (token : Nat) (text : List Char) (fuel : Nat) : Option String :=
  (boundaryCandidates (boundaryStr token) fuel).find? (fun b => !boundaryClashes b text)

/-- The `alltext` value handed to `_make_boundary` for the root
container: the newline-join of its flattened children. -/
def rootAllText (r : MessageRecord) (b2 : String) : List Char :=
  joinSep ['\n'] (altText r b2 :: attTexts r)

/-! ### Boundary-independent serialization template -/

/-- A serialization segment: literal text, or one of the two boundary
holes (root and alternative container). -/
inductive Seg where
  | lit : List Char → Seg
  | hRoot : Seg
  | hAlt : Seg

/-- Fill one segment. -/
def renderSeg (b1 b2 : String) : Seg → List Char
  | .lit l => l
  | .hRoot => b1.data
  | .hAlt => b2.data

/-- Fill a segment list. -/
def render (t : List Seg) (b1 b2 : String) : List Char :=
  catLists (t.map (renderSeg b1 b2))

/-- Multipart body at the template level. -/
def tmplMp (hseg : Seg) (tss : List (List Seg)) : List Seg :=
  [Seg.lit "--".data, hseg, Seg.lit ['\n']] ++
  joinSep [Seg.lit "\n--".data, hseg, Seg.lit ['\n']] tss ++
  [Seg.lit "\n--".data, hseg, Seg.lit ("--".data ++ ['\n'])]

/-- Template of the alternative container (hole `hAlt`). -/
def altTmpl (r : MessageRecord) : List Seg :=
  [Seg.lit "Content-Type: multipart/alternative; boundary=\"".data, Seg.hAlt,
   Seg.lit ("\"".data ++ '\n' :: (headerBlock [("MIME-Version", "1.0")] ++ ['\n']))] ++
  tmplMp .hAlt ((bodyParts r).map (fun p => [Seg.lit (partText p)]))

/-- Boundary-independent template of the whole serialization: the two
boundaries appear only through the holes. -/
def template (r : MessageRecord) : List Seg :=
  [Seg.lit "Content-Type: multipart/related; boundary=\"".data, Seg.hRoot,
   Seg.lit ("\"".data ++ '\n' ::
     (headerBlock (("MIME-Version", "1.0") :: recordHeaders r) ++ ['\n']))] ++
  tmplMp .hRoot (altTmpl r :: (attTexts r).map (fun t => [Seg.lit t]))

/-! ### Three consecutive equals signs never occur in base64 payloads -/

/-- Whether a character list starts with three `=` characters. -/
def startsEEE : List Char → Bool
  | a :: b :: c :: _ => a == '=' && b == '=' && c == '='
  | _ => false

/-- No window of three consecutive `=` characters anywhere. -/
def noEEE : List Char → Bool
  | [] => true
  | c :: t => !startsEEE (c :: t) && noEEE t

/-! ### The modelled `convert_oft_to_eml` result -/

/-- The observable outcome of `convert_oft_to_eml`: the path the file is
written to and returned (lines 39–41, 114 and 130 — the same
`eml_file_path` value is used for the write and for the return), and
the serialized text written there. -/
def convertOftToEml (oftPath : String) (emlPath : Option String)
    (r : MessageRecord) (b1 b2 : String) : String × List Char :=
  (convertOutputPath oftPath emlPath, serializeRecord r b1 b2)

/-! ### Elementary facts used by several claims -/

theorem attachParts_eq_filterMap (r : MessageRecord) :
    attachParts r = r.attachments.filterMap attachmentPart := by
  unfold attachParts
  cases r.attachments <;> simp

theorem textPartOpt_nil (sub : String) (v : Option String) (h : truthyS v = false) :
    textPartOpt sub v = [] := by
  rcases v with _ | s
  · rfl
  · have hs : s = "" := by simpa [truthyS] using h
    simp [textPartOpt, hs]

theorem attachmentPart_isSome (a : Attachment) :
    (attachmentPart a).isSome = dataNonEmpty a := by
  unfold attachmentPart dataNonEmpty
  rcases a.data with _ | ⟨_ | ⟨b, bs⟩⟩ <;> simp
  split <;> simp

/-! ### Claim theorems: document shape -/

/-- C2: every assembled document is a `multipart/related` root whose
first child is the `multipart/alternative` container; when neither body
variant is truthy the container is still present with zero children. -/
theorem alternative_first_child (r : MessageRecord) :
    (∃ rest, assemble r =
      .multi "related" (.multi "alternative" ((bodyParts r).map .part) :: rest)) ∧
    (truthyS r.body = false → truthyS r.htmlBody = false →
      ∃ rest, assemble r = .multi "related" (.multi "alternative" [] :: rest)) := by
  constructor
  · exact ⟨(attachParts r).map .part, rfl⟩
  · intro hb hh
    refine ⟨(attachParts r).map .part, ?_⟩
    have hbp : bodyParts r = [] := by
      unfold bodyParts
      rw [textPartOpt_nil "plain" r.body hb, textPartOpt_nil "html" r.htmlBody hh]
      rfl
    rw [assemble, hbp]
    rfl

/-- Witness for C2 at a record with no body variants. -/
theorem alternative_first_child_witness :
    ∃ rest,
      assemble ⟨none, none, none, none, none, none, none, []⟩ =
        .multi "related" (.multi "alternative" [] :: rest) :=
  (alternative_first_child ⟨none, none, none, none, none, none, none, []⟩).2 rfl rfl

/-- C3: the root's children are the alternative container followed by
exactly the parts of the attachments kept by the loop, in input order;
an attachment yields a part exactly when its data is non-empty. -/
theorem attachment_order_preserved (r : MessageRecord) :
    (∃ alt, assemble r =
        .multi "related" (alt :: (r.attachments.filterMap attachmentPart).map .part)) ∧
    (∀ a : Attachment, (attachmentPart a).isSome = dataNonEmpty a) := by
  refine ⟨⟨.multi "alternative" ((bodyParts r).map .part), ?_⟩, attachmentPart_isSome⟩
  rw [assemble, attachParts_eq_filterMap]

/-- C4: an attachment whose data is absent or empty contributes no part
and leaves the rest of the document unchanged. -/
theorem empty_attachment_skipped (r : MessageRecord)
    (pre post : List Attachment) (a : Attachment)
    (h : dataNonEmpty a = false) :
    assemble { r with attachments := pre ++ a :: post } =
      assemble { r with attachments := pre ++ post } := by
  have hnone : attachmentPart a = none := by
    have := attachmentPart_isSome a
    rw [h] at this
    exact Option.not_isSome_iff_eq_none.mp (by simp [this])
  unfold assemble
  rw [attachParts_eq_filterMap, attachParts_eq_filterMap]
  simp [List.filterMap_append, hnone, bodyParts]

/-- Witness for C4: a concrete data-less attachment between two real ones. -/
theorem empty_attachment_skipped_witness :
    dataNonEmpty ⟨some [], some "x.bin", none, none⟩ = false ∧
    assemble ⟨none, none, none, none, none, none, none,
        [⟨some [1], some "a.bin", none, none⟩,
         ⟨some [], some "x.bin", none, none⟩,
         ⟨some [2], some "b.bin", none, none⟩]⟩ =
      assemble ⟨none, none, none, none, none, none, none,
        [⟨some [1], some "a.bin", none, none⟩,
         ⟨some [2], some "b.bin", none, none⟩]⟩ :=
  ⟨rfl,
   empty_attachment_skipped ⟨none, none, none, none, none, none, none, []⟩
     [⟨some [1], some "a.bin", none, none⟩]
     [⟨some [2], some "b.bin", none, none⟩]
     ⟨some [], some "x.bin", none, none⟩ rfl⟩

/-! ### Claim theorems: headers -/

theorem hasHeaderName_append (n : String) (xs ys : List (String × String)) :
    hasHeaderName n (xs ++ ys) = (hasHeaderName n xs || hasHeaderName n ys) := by
  simp [hasHeaderName]

theorem hasHeaderName_cons (n : String) (h : String × String) (t : List (String × String)) :
    hasHeaderName n (h :: t) = ((h.1 == n) || hasHeaderName n t) := by
  simp [hasHeaderName]

theorem hasHeaderName_optHeader (n m : String) (v : Option String) :
    hasHeaderName n (optHeader m v) = ((m == n) && truthyS v) := by
  rcases v with _ | s
  · simp [hasHeaderName, optHeader, truthyS]
  · by_cases h : s = "" <;> simp [hasHeaderName, optHeader, truthyS, h]

theorem hasHeaderName_dateHeader (n : String) (v : Option PyDate) :
    hasHeaderName n (dateHeader v)
      = ((("Date" : String) == n) && (match v with | some d => dateTruthy d | none => false)) := by
  rcases v with _ | d
  · simp [hasHeaderName, dateHeader]
  · by_cases h : dateTruthy d <;> simp [hasHeaderName, dateHeader, h]

/-- C7: each of the From, To, Cc, Subject header lines is present in the
root header list exactly when the corresponding record field is truthy
(present and non-empty); a falsy field contributes no header at all. -/
theorem header_iff_truthy (r : MessageRecord) (b : String) :
    hasHeaderName "From" (rootHeaders r b) = truthyS r.sender ∧
    hasHeaderName "To" (rootHeaders r b) = truthyS r.toRecip ∧
    hasHeaderName "Cc" (rootHeaders r b) = truthyS r.cc ∧
    hasHeaderName "Subject" (rootHeaders r b) = truthyS r.subject := by
  refine ⟨?_, ?_, ?_, ?_⟩ <;>
    simp [rootHeaders, recordHeaders, hasHeaderName_cons, hasHeaderName_append,
      hasHeaderName_optHeader, hasHeaderName_dateHeader]

/-! ### Claim theorems: attachment classification -/

/-- C9: an attachment with non-empty data but a falsy `contentId`
(missing attribute, `None`, or the empty string) is emitted as a regular
`application/octet-stream` attachment — no `Content-ID` header, a
`Content-Disposition: attachment` header — regardless of its extension. -/
theorem regular_when_contentid_falsy (a : Attachment)
    (hd : dataNonEmpty a = true) (hc : truthyS a.contentId = false) :
    (attachmentPart a).map Part.ctype = some "application/octet-stream" ∧
    (attachmentPart a).map (fun p => List.lookup "Content-ID" p.extraHeaders) = some none ∧
    (attachmentPart a).map (fun p => List.lookup "Content-Disposition" p.extraHeaders)
      = some (some ("attachment; filename=\"" ++ displayName a ++ "\"")) := by
  unfold dataNonEmpty at hd
  rcases hdata : a.data with _ | ⟨_ | ⟨b, bs⟩⟩ <;> rw [hdata] at hd <;> simp at hd
  unfold attachmentPart
  rw [hdata, hc]
  simp [List.lookup]

/-- Witness for C9: `photo.PNG` with no content id stays an attachment. -/
theorem regular_when_contentid_falsy_witness :
    dataNonEmpty ⟨some [1, 2], some "photo.PNG", none, none⟩ = true ∧
    (attachmentPart ⟨some [1, 2], some "photo.PNG", none, none⟩).map Part.ctype
      = some "application/octet-stream" :=
  ⟨rfl, (regular_when_contentid_falsy ⟨some [1, 2], some "photo.PNG", none, none⟩ rfl rfl).1⟩

/-- C1 counterexample: an attachment whose `contentId` attribute is
present but equal to the empty string, with image data and a recognized
image extension, is classified as a regular attachment, not as an
inline image — `contentId` presence alone does not suffice. -/
theorem inline_claim_cex :
    (attachmentPart ⟨some [137, 80, 78], some "pic.png", none, some ""⟩).map Part.ctype
      = some "application/octet-stream" ∧
    (attachmentPart ⟨some [137, 80, 78], some "pic.png", none, some ""⟩).map Part.ctype
      ≠ some "image/png" ∧
    (attachmentPart ⟨some [137, 80, 78], some "pic.png", none, some ""⟩).map
        (fun p => List.lookup "Content-ID" p.extraHeaders) = some none := by
  refine ⟨rfl, by decide, rfl⟩

/-- C1 (amended): for an attachment with non-empty data, a truthy
(present and non-empty) `contentId`, and a display name whose lowercase
form ends in a recognized image extension, the produced part has MIME
type `image/<type>` (`jpg` normalized to `jpeg`), a base64-encoded
payload, a `Content-ID` header wrapping the identifier in angle
brackets, and an inline `Content-Disposition` whose `filename`
parameter carries the display name as `_formatparam` renders it: a
quote-escaped quoted string for an ASCII name, and the RFC 2231
extended form `filename*=utf-8''…` (percent-encoded UTF-8 bytes) for a
non-ASCII name. -/
theorem inline_image_classified (a : Attachment) (cid : String) (d : List Nat)
    (hc : a.contentId = some cid) (hcne : cid ≠ "")
    (hd : a.data = some d) (hne : d ≠ [])
    (hi : isImageName (displayName a) = true) :
    (attachmentPart a).map Part.ctype = some ("image/" ++ normalizedImageType (displayName a)) ∧
    (attachmentPart a).map Part.payload = some (encodeBase64Payload d) ∧
    (attachmentPart a).map (fun p => List.lookup "Content-ID" p.extraHeaders)
      = some (some ("<" ++ cid ++ ">")) ∧
    (attachmentPart a).map (fun p => List.lookup "Content-Disposition" p.extraHeaders)
      = some (some ("inline; " ++ formatParamFilename (displayName a))) := by
  rcases d with _ | ⟨b, bs⟩
  · exact absurd rfl hne
  · unfold attachmentPart
    rw [hd]
    simp [truthyS, hc, hcne, hi, List.lookup]

/-- Witness for the amended C1 at the spec's own example
(`contentId = "img1"`, filename `photo.JPG`), plus a non-ASCII
filename showing the RFC 2231 rendering of the disposition. -/
theorem inline_image_classified_witness :
    isImageName (displayName ⟨some [255, 216, 255], some "photo.JPG", none, some "img1"⟩) = true ∧
    (attachmentPart ⟨some [255, 216, 255], some "photo.JPG", none, some "img1"⟩).map Part.ctype
      = some "image/jpeg" ∧
    (attachmentPart ⟨some [255, 216, 255], some "photo.JPG", none, some "img1"⟩).map
        (fun p => List.lookup "Content-Disposition" p.extraHeaders)
      = some (some "inline; filename=\"photo.JPG\"") ∧
    (attachmentPart ⟨some [1, 2], some "fotó.png", none, some "c1"⟩).map
        (fun p => List.lookup "Content-Disposition" p.extraHeaders)
      = some (some ("inline; filename*=utf-8" ++ String.mk [apos, apos] ++ "fot%C3%B3.png")) := by
  refine ⟨by decide, ?_, ?_, ?_⟩
  · have h := (inline_image_classified
      ⟨some [255, 216, 255], some "photo.JPG", none, some "img1"⟩
      "img1" [255, 216, 255] rfl (by decide) rfl (by decide) (by decide)).1
    simpa using h
  · have h := (inline_image_classified
      ⟨some [255, 216, 255], some "photo.JPG", none, some "img1"⟩
      "img1" [255, 216, 255] rfl (by decide) rfl (by decide) (by decide)).2.2.2
    exact h.trans (by decide)
  · have h := (inline_image_classified
      ⟨some [1, 2], some "fotó.png", none, some "c1"⟩
      "c1" [1, 2] rfl (by decide) rfl (by decide) (by decide)).2.2.2
    exact h.trans (by decide)

/-! ### Claim theorems: Date header -/

/-- C6 counterexample: for a naive datetime (no timezone information)
the code formats with `strftime` — producing an empty `%z` field and a
trailing space — rather than falling back to `str(msg.date)` as the
claim states. -/
theorem date_fallback_cex :
    List.lookup "Date"
        (recordHeaders ⟨none, none, none, none,
          some (.dt 2024 1 1 10 0 0 none), none, none, []⟩)
      = some "Mon, 01 Jan 2024 10:00:00 " ∧
    pyStrDate (.dt 2024 1 1 10 0 0 none) = "2024-01-01 10:00:00" ∧
    ("Mon, 01 Jan 2024 10:00:00 " : String) ≠ "2024-01-01 10:00:00" := by
  refine ⟨by decide, by decide, by decide⟩

/-- C6 (amended): a truthy date is always emitted as a Date header;
values with `strftime` (datetimes, aware or naive) are formatted as
`%a, %d %b %Y %H:%M:%S %z`, where a naive datetime renders `%z` empty
instead of raising; only values without `strftime` (e.g. plain strings)
fall back to the `str()` rendering. -/
theorem date_header_emitted (r : MessageRecord) (d : PyDate)
    (hdate : r.date = some d) (ht : dateTruthy d = true) :
    ("Date", formatDate d) ∈ recordHeaders r ∧
    (∀ s, formatDate (.raw s) = s) ∧
    (∀ y mo da h mi s, formatDate (.dt y mo da h mi s none)
        = strftimeDate y mo da h mi s none) := by
  refine ⟨?_, fun _ => rfl, fun _ _ _ _ _ _ => rfl⟩
  unfold recordHeaders
  refine List.mem_append_right _ ?_
  simp [dateHeader, hdate, ht]

/-- Witness for the amended C6 at a concrete naive datetime. -/
theorem date_header_emitted_witness :
    dateTruthy (.dt 2024 1 1 10 0 0 none) = true ∧
    ("Date", formatDate (.dt 2024 1 1 10 0 0 none)) ∈
      recordHeaders ⟨none, none, none, none,
        some (.dt 2024 1 1 10 0 0 none), none, none, []⟩ :=
  ⟨rfl,
   (date_header_emitted ⟨none, none, none, none,
       some (.dt 2024 1 1 10 0 0 none), none, none, []⟩
     (.dt 2024 1 1 10 0 0 none) rfl rfl).1⟩

/-! ### Claim theorems: Subject encoding -/

theorem getD_all {α : Type} (P : α → Bool) (l : List α) (d : α)
    (hl : l.all P = true) (hd : P d = true) :
    ∀ m, P (l.getD m d) = true := by
  induction l with
  | nil => intro m; simpa using hd
  | cons c t ih =>
    intro m
    rcases m with _ | m
    · simp at hl
      simpa using hl.1
    · simp at hl
      simpa using ih (by simpa using hl.2) m

theorem b64char_ascii (n : Nat) : asciiCharB (b64char n) = true := by
  unfold b64char
  exact getD_all asciiCharB b64chars 'A' (by decide) (by decide) (n % 64)

theorem b64core_ascii : ∀ d, (b64core d).all asciiCharB = true
  | [] => by simp [b64core]
  | [a] => by
      have he : asciiCharB '=' = true := by decide
      simp [b64core, b64char_ascii, he]
  | [a, b] => by
      have he : asciiCharB '=' = true := by decide
      simp [b64core, b64char_ascii, he]
  | a :: b :: c :: rest => by
      simp [b64core, b64char_ascii, b64core_ascii rest]

theorem qByte_ascii (b : Nat) : (qByte b).all asciiCharB = true := by
  unfold qByte
  by_cases h32 : b = 32
  · rw [if_pos h32]
    decide
  · rw [if_neg h32]
    by_cases hmem : qsafeBytes.contains b = true
    · rw [if_pos hmem]
      have hall : ∀ x ∈ qsafeBytes, asciiCharB (Char.ofNat x) = true := by decide
      have hb2 : asciiCharB (Char.ofNat b) = true := hall b (by simpa using hmem)
      simp [hb2]
    · rw [if_neg hmem]
      have h1 : asciiCharB (hexDig (b / 16)) = true :=
        getD_all asciiCharB hexDigits '0' (by decide) (by decide) _
      have h2 : asciiCharB (hexDig (b % 16)) = true :=
        getD_all asciiCharB hexDigits '0' (by decide) (by decide) _
      have he : asciiCharB '=' = true := by decide
      simp [he, h1, h2]

theorem qEncode_ascii : ∀ bs, (qEncode bs).all asciiCharB = true
  | [] => by simp [qEncode]
  | b :: t => by
      simp [qEncode, List.all_append, qByte_ascii b, qEncode_ascii t]

theorem sdata_append (a b : String) : (a ++ b).data = a.data ++ b.data := rfl

theorem headerEncodeValue_ascii (s : String) :
    ((headerEncodeValue s).data.all asciiCharB) = true := by
  have hb : ("=?utf-8?b?").data.all asciiCharB = true := by decide
  have hq : ("=?utf-8?q?").data.all asciiCharB = true := by decide
  have he : ("?=").data.all asciiCharB = true := by decide
  by_cases h : s.data.all asciiCharB = true
  · unfold headerEncodeValue
    rw [if_pos h]
    exact h
  · unfold headerEncodeValue
    rw [if_neg h]
    dsimp only
    split <;>
        simp [sdata_append, List.all_append, b64core_ascii, qEncode_ascii, hb, hq, he] <;>
      decide

theorem headerEncodeValue_of_ascii (s : String) (h : s.data.all asciiCharB = true) :
    headerEncodeValue s = s := by
  unfold headerEncodeValue
  rw [h]
  simp

theorem headerEncodeValue_token (s : String) (h : s.data.all asciiCharB = false) :
    ∃ rest : String, headerEncodeValue s = "=?utf-8?" ++ rest := by
  unfold headerEncodeValue
  rw [h]
  simp only [Bool.false_eq_true, if_false]
  split
  · exact ⟨"b?" ++ String.mk (b64core (utf8Encode s.data)) ++ "?=", by
      simp [← String.append_assoc]⟩
  · exact ⟨"q?" ++ String.mk (qEncode (utf8Encode s.data)) ++ "?=", by
      simp [← String.append_assoc]⟩

/-- C5: a Subject with any non-ASCII code point is serialized as a pure
ASCII header line containing a UTF-8 encoded-word token (`=?utf-8?`),
and an ASCII-only Subject passes through unencoded. -/
theorem subject_encoded (s : String) :
    (s.data.all asciiCharB = false →
      (headerLineL ("Subject", s)).all asciiCharB = true ∧
      ContainsSeg ("=?utf-8?".data) (headerLineL ("Subject", s))) ∧
    (s.data.all asciiCharB = true → headerEncodeValue s = s) := by
  constructor
  · intro h
    constructor
    · simp [headerLineL, List.all_append, headerEncodeValue_ascii s]
      decide
    · obtain ⟨rest, hrest⟩ := headerEncodeValue_token s h
      refine ⟨"Subject: ".data, rest.data ++ ['\n'], ?_⟩
      simp [headerLineL, hrest, sdata_append, List.append_assoc]
  · exact headerEncodeValue_of_ascii s

/-- Witness for C5: "Café" is encoded to an ASCII line with the
encoded-word token; "Hello" passes through unchanged. -/
theorem subject_encoded_witness :
    ("Café".data.all asciiCharB = false) ∧
    ((headerLineL ("Subject", "Café")).all asciiCharB = true ∧
      ContainsSeg ("=?utf-8?".data) (headerLineL ("Subject", "Café"))) ∧
    headerEncodeValue "Hello" = "Hello" :=
  ⟨by decide, (subject_encoded "Café").1 (by decide),
    (subject_encoded "Hello").2 (by decide)⟩

/-! ### Claim theorems: output path -/

/-- C10: with no output path supplied the converter derives the output
path as the input file's stem plus `.eml` (a bare filename, resolved in
the current working directory), writes there and returns that path;
with one supplied, exactly that path is used. -/
theorem output_path_derivation (oft : String) (eml : Option String)
    (r : MessageRecord) (b1 b2 : String) :
    (eml = none → (convertOftToEml oft eml r b1 b2).1 = pathStem oft ++ ".eml") ∧
    (∀ p, eml = some p → (convertOftToEml oft eml r b1 b2).1 = p) := by
  constructor
  · intro h
    rw [h]
    rfl
  · intro p h
    rw [h]
    rfl

/-- Witness for C10 at a concrete relative input path. -/
theorem output_path_derivation_witness :
    (convertOftToEml "docs/template.oft" none
        ⟨none, none, none, none, none, none, none, []⟩ "B" "C").1
      = pathStem "docs/template.oft" ++ ".eml" ∧
    pathStem "docs/template.oft" ++ ".eml" = "template.eml" ∧
    (convertOftToEml "in.oft" (some "out/x.eml")
        ⟨none, none, none, none, none, none, none, []⟩ "B" "C").1 = "out/x.eml" :=
  ⟨(output_path_derivation "docs/template.oft" none
      ⟨none, none, none, none, none, none, none, []⟩ "B" "C").1 rfl,
   by decide,
   (output_path_derivation "in.oft" (some "out/x.eml")
      ⟨none, none, none, none, none, none, none, []⟩ "B" "C").2 "out/x.eml" rfl⟩

/-! ### No three consecutive equals signs in base64 payloads -/

theorem noEEE_cons (c : Char) (t : List Char) :
    noEEE (c :: t) = (!startsEEE (c :: t) && noEEE t) := rfl

theorem noEEE_cons_inv {c : Char} {t : List Char} (h : noEEE (c :: t) = true) :
    noEEE t = true := by
  rw [noEEE_cons] at h
  simp at h
  exact h.2

theorem startsEEE_false_of_head_ne {c : Char} (t : List Char) (hc : c ≠ '=') :
    startsEEE (c :: t) = false := by
  rcases t with _ | ⟨d, _ | ⟨e, t2⟩⟩
  · rfl
  · rfl
  · show ((c == '=') && (d == '=') && (e == '=')) = false
    have h2 : (c == '=') = false := by simpa using hc
    simp [h2]

theorem noEEE_of_head_ne {c : Char} (t : List Char) (hc : c ≠ '=') :
    noEEE (c :: t) = noEEE t := by
  rw [noEEE_cons, startsEEE_false_of_head_ne t hc]
  simp

theorem startsEEE_take {n : Nat} {s : List Char} (h : startsEEE (s.take n) = true) :
    startsEEE s = true := by
  rcases s with _ | ⟨a, _ | ⟨b, _ | ⟨c, t⟩⟩⟩ <;>
  rcases n with _ | ⟨_ | ⟨_ | n⟩⟩ <;>
  simp_all [startsEEE, List.take]

theorem noEEE_take (s : List Char) (h : noEEE s = true) :
    ∀ n, noEEE (s.take n) = true := by
  induction s with
  | nil => intro n; rw [List.take_nil]; rfl
  | cons c t ih =>
    intro n
    rcases n with _ | m
    · rfl
    · have ht := noEEE_cons_inv h
      rw [List.take_succ_cons, noEEE_cons]
      have h1 : startsEEE (c :: t.take m) = false := by
        cases hs : startsEEE (c :: t.take m)
        · rfl
        · have h2 : startsEEE ((c :: t).take (m + 1)) = true := by
            rw [List.take_succ_cons]; exact hs
          have h3 := startsEEE_take h2
          rw [noEEE_cons, h3] at h
          simp at h
      rw [h1]
      simp [ih ht m]

theorem noEEE_drop (s : List Char) (h : noEEE s = true) :
    ∀ n, noEEE (s.drop n) = true := by
  induction s with
  | nil => intro n; rw [List.drop_nil]; rfl
  | cons c t ih =>
    intro n
    rcases n with _ | m
    · exact h
    · rw [List.drop_succ_cons]
      exact ih (noEEE_cons_inv h) m

theorem noEEE_append_cons (a : List Char) (c : Char) (b : List Char)
    (ha : noEEE a = true) (hb : noEEE b = true) (hc : c ≠ '=') :
    noEEE (a ++ c :: b) = true := by
  induction a with
  | nil => simpa [noEEE_of_head_ne b hc] using hb
  | cons x a' ih =>
    have ha' : noEEE a' = true := noEEE_cons_inv ha
    have hrec : noEEE (a' ++ c :: b) = true := ih ha'
    rw [List.cons_append, noEEE_cons, hrec]
    suffices hs : startsEEE (x :: (a' ++ c :: b)) = false by simp [hs]
    have h2 : (c == '=') = false := by simpa using hc
    rcases a' with _ | ⟨y, _ | ⟨z, a2⟩⟩
    · rcases b with _ | ⟨w, b'⟩
      · rfl
      · show ((x == '=') && (c == '=') && (w == '=')) = false
        simp [h2]
    · show ((x == '=') && (y == '=') && (c == '=')) = false
      simp [h2]
    · have hfrom : startsEEE (x :: y :: z :: a2) = false := by
        cases hs2 : startsEEE (x :: y :: z :: a2)
        · rfl
        · rw [noEEE_cons, hs2] at ha
          simp at ha
      show ((x == '=') && (y == '=') && (z == '=')) = false
      have heq : ((x == '=') && (y == '=') && (z == '=')) = startsEEE (x :: y :: z :: a2) := rfl
      rw [heq, hfrom]

theorem b64char_ne (n : Nat) : b64char n ≠ '=' := by
  unfold b64char
  have h := getD_all (fun c => c != '=') b64chars 'A' (by decide) (by decide) (n % 64)
  simpa using h

theorem noEEE_b64core : ∀ d, noEEE (b64core d) = true
  | [] => rfl
  | [a] => by
      rw [show b64core [a]
          = b64char (a / 4) :: b64char ((a % 4) * 16) :: '=' :: '=' :: [] from rfl]
      rw [noEEE_of_head_ne _ (b64char_ne _), noEEE_of_head_ne _ (b64char_ne _)]
      decide
  | [a, b] => by
      rw [show b64core [a, b]
          = b64char (a / 4) :: b64char ((a % 4) * 16 + b / 16) ::
            b64char ((b % 16) * 4) :: '=' :: [] from rfl]
      rw [noEEE_of_head_ne _ (b64char_ne _), noEEE_of_head_ne _ (b64char_ne _),
        noEEE_of_head_ne _ (b64char_ne _)]
      decide
  | a :: b :: c :: rest => by
      rw [show b64core (a :: b :: c :: rest)
          = b64char (a / 4) :: b64char ((a % 4) * 16 + b / 16) ::
            b64char ((b % 16) * 4 + c / 64) :: b64char (c % 64) :: b64core rest from rfl]
      rw [noEEE_of_head_ne _ (b64char_ne _), noEEE_of_head_ne _ (b64char_ne _),
        noEEE_of_head_ne _ (b64char_ne _), noEEE_of_head_ne _ (b64char_ne _)]
      exact noEEE_b64core rest

theorem noEEE_wrapAux : ∀ fuel l, noEEE l = true → noEEE (wrapAux fuel l) = true := by
  intro fuel
  induction fuel with
  | zero =>
    intro l h
    rcases l with _ | ⟨c, t⟩
    · rfl
    · exact h
  | succ f ih =>
    intro l h
    rcases l with _ | ⟨c, t⟩
    · rfl
    · rw [show wrapAux (f + 1) (c :: t)
          = (c :: t).take 76 ++ '\n' :: wrapAux f ((c :: t).drop 76) from rfl]
      exact noEEE_append_cons _ _ _ (noEEE_take _ h 76) (ih _ (noEEE_drop _ h 76)) (by decide)

theorem noEEE_payload (d : List Nat) : noEEE (encodeBase64Payload d) = true :=
  noEEE_wrapAux _ _ (noEEE_b64core d)

theorem noEEE_not_seg : ∀ (p q : List Char),
    noEEE (p ++ '=' :: '=' :: '=' :: q) = true → False
  | [], q, hne => by
      rw [List.nil_append, noEEE_cons] at hne
      simp [startsEEE] at hne
  | x :: p', q, hne => noEEE_not_seg p' q (by
      rw [List.cons_append] at hne
      exact noEEE_cons_inv hne)

theorem noEEE_no_seg {h : List Char} (hne : noEEE h = true) :
    ¬ ContainsSeg ['=', '=', '='] h := by
  rintro ⟨p, q, rfl⟩
  exact noEEE_not_seg p q (by simpa using hne)

/-! ### Generated boundaries start with three equals signs -/

theorem sappend_empty (s : String) : s ++ "" = s := by
  apply String.ext
  simp [sdata_append]

theorem makeBoundary_shape (token : Nat) (text : List Char) (fuel : Nat) (b : String)
    (hb : makeBoundary token text fuel = some b) :
    ∃ t : String, b = boundaryStr token ++ t := by
  have hmem : b ∈ boundaryCandidates (boundaryStr token) fuel :=
    List.mem_of_find?_eq_some hb
  unfold boundaryCandidates at hmem
  rcases List.mem_cons.mp hmem with h | h
  · exact ⟨"", by rw [h, sappend_empty]⟩
  · rcases List.mem_map.mp h with ⟨i, _, hi⟩
    exact ⟨"." ++ toString i, by rw [← hi, String.append_assoc]⟩

theorem boundary_data_eee (token : Nat) (t : String) :
    ∃ rest, (boundaryStr token ++ t).data = '=' :: '=' :: '=' :: rest := by
  refine ⟨"============".data ++ ((fmt019 token).data ++ ("==".data ++ t.data)), ?_⟩
  have h15 : ("===============" : String).data
      = '=' :: '=' :: '=' :: "============".data := by decide
  simp [boundaryStr, sdata_append, h15]

theorem contains_boundary_contains_eee (token : Nat) (t : String) (p : List Char)
    (h : ContainsSeg (boundaryStr token ++ t).data p) :
    ContainsSeg ['=', '=', '='] p := by
  obtain ⟨x, y, hxy⟩ := h
  obtain ⟨rest, hrest⟩ := boundary_data_eee token t
  refine ⟨x, rest ++ y, ?_⟩
  rw [hxy, hrest]
  simp

/-! ### Every payload of the document is a base64 encoding -/

theorem attachmentPart_payload (a : Attachment) (p : Part)
    (h : attachmentPart a = some p) : ∃ d, p.payload = encodeBase64Payload d := by
  unfold attachmentPart at h
  rcases hdata : a.data with _ | ⟨_ | ⟨b, bs⟩⟩ <;> rw [hdata] at h
  · exact absurd h (by simp)
  · exact absurd h (by simp)
  · refine ⟨b :: bs, ?_⟩
    dsimp only at h
    split at h <;>
    · have h' := Option.some.inj h
      rw [← h']

theorem textPartOpt_payload (sub : String) (v : Option String) :
    ∀ p ∈ textPartOpt sub v, ∃ d, p.payload = encodeBase64Payload d := by
  intro p hp
  rcases v with _ | s
  · simp [textPartOpt] at hp
  · by_cases hs : s = ""
    · simp [textPartOpt, hs] at hp
    · simp [textPartOpt, hs] at hp
      exact ⟨utf8Encode s.data, by rw [hp]; rfl⟩

theorem allPayloads_b64 (r : MessageRecord) :
    ∀ p ∈ allPayloads r, ∃ d, p = encodeBase64Payload d := by
  intro p hp
  unfold allPayloads at hp
  rcases List.mem_map.mp hp with ⟨part, hmem, hpay⟩
  rcases List.mem_append.mp hmem with h | h
  · unfold bodyParts at h
    rcases List.mem_append.mp h with h' | h'
    · obtain ⟨d, hd⟩ := textPartOpt_payload "plain" r.body part h'
      exact ⟨d, by rw [← hpay, hd]⟩
    · obtain ⟨d, hd⟩ := textPartOpt_payload "html" r.htmlBody part h'
      exact ⟨d, by rw [← hpay, hd]⟩
  · rw [attachParts_eq_filterMap] at h
    rcases List.mem_filterMap.mp h with ⟨a, _, ha⟩
    obtain ⟨d, hd⟩ := attachmentPart_payload a part ha
    exact ⟨d, by rw [← hpay, hd]⟩

/-! ### Rendering the template gives the serialization -/

theorem catLists_append {α : Type} :
    ∀ xs ys : List (List α), catLists (xs ++ ys) = catLists xs ++ catLists ys
  | [], ys => by simp [catLists]
  | x :: xs, ys => by simp [catLists, catLists_append xs ys]

theorem render_append (xs ys : List Seg) (b1 b2 : String) :
    render (xs ++ ys) b1 b2 = render xs b1 b2 ++ render ys b1 b2 := by
  unfold render
  rw [List.map_append, catLists_append]

theorem render_joinSep (b1 b2 : String) (sep : List Seg) :
    ∀ tss, render (joinSep sep tss) b1 b2
      = joinSep (render sep b1 b2) (tss.map (fun ts => render ts b1 b2))
  | [] => by simp [joinSep, render, catLists]
  | [t] => by simp [joinSep]
  | t :: t' :: ts => by
      rw [show joinSep sep (t :: t' :: ts) = t ++ sep ++ joinSep sep (t' :: ts) from rfl]
      rw [render_append, render_append, render_joinSep b1 b2 sep (t' :: ts)]
      simp [joinSep, List.append_assoc]

theorem render_tmplMp (b1 b2 : String) (hseg : Seg) (tss : List (List Seg)) :
    render (tmplMp hseg tss) b1 b2
      = mpBody (renderSeg b1 b2 hseg) (tss.map (fun ts => render ts b1 b2)) := by
  unfold tmplMp mpBody
  rw [render_append, render_append, render_joinSep]
  simp [render, renderSeg, catLists, List.append_assoc]

theorem render_altTmpl (r : MessageRecord) (b1 b2 : String)
    (h2 : b2.data.all asciiCharB = true) :
    render (altTmpl r) b1 b2 = altText r b2 := by
  have hctA : ("multipart/alternative; boundary=\"").data.all asciiCharB = true := by decide
  have hqA : ("\"").data.all asciiCharB = true := by decide
  have hev : headerEncodeValue ("multipart/alternative; boundary=\"" ++ b2 ++ "\"")
      = "multipart/alternative; boundary=\"" ++ b2 ++ "\"" :=
    headerEncodeValue_of_ascii _ (by simp [sdata_append, List.all_append, h2]; decide)
  have hlit : ("Content-Type: multipart/alternative; boundary=\"").data
      = "Content-Type".data ++ ": ".data ++ "multipart/alternative; boundary=\"".data := by
    decide
  have hfun : ((fun ts => catLists (List.map (renderSeg b1 b2) ts)) ∘
      fun p : Part => [Seg.lit (partText p)]) = partText := by
    funext p
    simp [catLists, renderSeg]
  unfold altTmpl altText
  rw [render_append, render_tmplMp]
  simp [render, renderSeg, catLists, headerBlock, headerLineL, altHeaders, hev,
    sdata_append, hlit, List.append_assoc, List.map_map, hfun]

theorem serialize_template (r : MessageRecord) (b1 b2 : String)
    (h1 : b1.data.all asciiCharB = true) (h2 : b2.data.all asciiCharB = true) :
    serializeRecord r b1 b2 = render (template r) b1 b2 := by
  have hctR : ("multipart/related; boundary=\"").data.all asciiCharB = true := by decide
  have hqA : ("\"").data.all asciiCharB = true := by decide
  have hev : headerEncodeValue ("multipart/related; boundary=\"" ++ b1 ++ "\"")
      = "multipart/related; boundary=\"" ++ b1 ++ "\"" :=
    headerEncodeValue_of_ascii _ (by simp [sdata_append, List.all_append, h1]; decide)
  have hlit : ("Content-Type: multipart/related; boundary=\"").data
      = "Content-Type".data ++ ": ".data ++ "multipart/related; boundary=\"".data := by
    decide
  unfold serializeRecord template
  rw [render_append, render_tmplMp]
  rw [show List.map (fun ts => render ts b1 b2)
        (altTmpl r :: (attTexts r).map (fun t => [Seg.lit t]))
      = render (altTmpl r) b1 b2 ::
        ((attTexts r).map (fun t => [Seg.lit t])).map (fun ts => render ts b1 b2) from rfl]
  have hfun : ((fun ts => catLists (List.map (renderSeg b1 b2) ts)) ∘
      fun t : List Char => [Seg.lit t]) = id := by
    funext t
    simp [catLists, renderSeg]
  rw [render_altTmpl r b1 b2 h2]
  simp [render, renderSeg, catLists, headerBlock, headerLineL, rootHeaders, hev,
    sdata_append, hlit, List.append_assoc, List.map_map, hfun]

/-! ### Claim theorem: determinism up to boundary, collision-free boundaries -/

/-- C8: the serialization is a boundary-independent template with the
boundary substituted into the holes — so two assemblies of the same
record are byte-identical except for the generated boundary strings —
and any boundary produced by the generator (for any random token, any
retry count and any text) never occurs as a substring of any part's
base64-encoded payload, since boundaries start with `===` and base64
output never contains three consecutive `=` characters. -/
theorem serialization_deterministic_collision_free (r : MessageRecord)
    (b1 b2 : String)
    (h1 : b1.data.all asciiCharB = true) (h2 : b2.data.all asciiCharB = true)
    (token fuel : Nat) (text : List Char) (b : String)
    (hb : makeBoundary token text fuel = some b)
    (p : List Char) (hp : p ∈ allPayloads r) :
    serializeRecord r b1 b2 = render (template r) b1 b2 ∧
    ¬ ContainsSeg b.data p := by
  refine ⟨serialize_template r b1 b2 h1 h2, ?_⟩
  intro hcont
  obtain ⟨t, ht⟩ := makeBoundary_shape token text fuel b hb
  rw [ht] at hcont
  have heee := contains_boundary_contains_eee token t p hcont
  obtain ⟨d, hd⟩ := allPayloads_b64 r p hp
  rw [hd] at heee
  exact noEEE_no_seg (noEEE_payload d) heee

/-- Witness for C8: a concrete record with a text body, the first
generated boundary for token 0, and the body's encoded payload. -/
theorem serialization_deterministic_collision_free_witness :
    serializeRecord ⟨none, none, none, none, none, some "hello", none, []⟩ "X" "Y"
      = render (template ⟨none, none, none, none, none, some "hello", none, []⟩) "X" "Y" ∧
    ¬ ContainsSeg (boundaryStr 0).data
        (encodeBase64Payload (utf8Encode "hello".data)) :=
  serialization_deterministic_collision_free
    ⟨none, none, none, none, none, some "hello", none, []⟩ "X" "Y"
    (by decide) (by decide) 0 0 [] (boundaryStr 0) (by decide)
    (encodeBase64Payload (utf8Encode "hello".data)) (by decide)

end OftEml
